import Mathlib

/-!
Shallow embedding of the WALExplorer core (PostgreSQL WAL decoder and
transaction tracker) and proofs about it.

Embedded modules:
- src/utils/lsn_utils.py      (LSN value, text form, parsing)
- src/utils/binary_reader.py  (byte cursor)
- src/core/wal_parser.py      (XLogRecord, WALPageHeader, record body parsing)
- src/core/xlog_reader.py     (XLogReader page scan and range-filtered stream)
- src/core/transaction_manager.py (TransactionManager state machine)

Python integers are modelled as Nat (all values handled here are
non-negative); bytes objects as a length plus an indexing function,
materialised into explicit List Nat values when consumed; dicts as
insertion-ordered association lists; sets as duplicate-free lists;
raised exceptions as Except.error results.  Methods that mutate the receiver are modelled as
functions returning the result paired with the post-call state, keeping
the source's statement order, so that a raise that happens before a
mutation yields the unchanged state.
-/

/-! ## Hexadecimal text helpers

Model of Python's f-string "{n:X}" formatting and of int(s, 16) on
strings of hexadecimal digits (uppercase, lowercase or mixed); the
exotic inputs int() also accepts (whitespace, signs, 0x, underscores)
do not occur in this development. -/

/-- Uppercase hexadecimal digit character for a value below 16,
as produced by Python's "{n:X}" format. -/
def hexDigitCh (d : Nat) : Char :=
  if d < 10 then Char.ofNat (48 + d) else Char.ofNat (55 + d)

/-- Fuel-driven accumulator loop producing the uppercase hex digits of n
(most significant first) in front of acc.  Fuel at least n suffices. -/
def toHexAux : Nat → Nat → List Char → List Char
  | 0, _, acc => acc
  | fuel + 1, n, acc =>
    if n = 0 then acc else toHexAux fuel (n / 16) (hexDigitCh (n % 16) :: acc)

/-- Uppercase hexadecimal rendering of a Nat with no leading zeros,
exactly Python's f"{n:X}". -/
def natToHex (n : Nat) : List Char :=
  if n = 0 then ['0'] else toHexAux (n + 1) n []

/-- Value of one hexadecimal digit character, none when the character is
not a hexadecimal digit. -/
def hexCharVal? (c : Char) : Option Nat :=
  if '0' ≤ c ∧ c ≤ '9' then some (c.toNat - 48)
  else if 'A' ≤ c ∧ c ≤ 'F' then some (c.toNat - 55)
  else if 'a' ≤ c ∧ c ≤ 'f' then some (c.toNat - 87)
  else none

/-- Horner loop for hexadecimal string value. -/
def hexStrValAux : Nat → List Char → Option Nat
  | acc, [] => some acc
  | acc, c :: cs =>
    match hexCharVal? c with
    | some v => hexStrValAux (acc * 16 + v) cs
    | none => none

/-- Model of Python int(s, 16) on a string of hexadecimal digits: none on
the empty string or on a non-digit character (ValueError in Python). -/
def hexStrVal? (l : List Char) : Option Nat :=
  if l = [] then none else hexStrValAux 0 l

/-- Model of Python str.split for the single-character separator used by
the LSN parser: always yields (number of separators + 1) pieces. -/
def splitSlash : List Char → List (List Char)
  | [] => [[]]
  | c :: cs =>
    if c = '/' then [] :: splitSlash cs
    else
      match splitSlash cs with
      | p :: ps => (c :: p) :: ps
      | [] => [[c]]

/-! ## LSN (src/utils/lsn_utils.py) -/

/-- PostgreSQL log sequence number: a 64-bit value (unbounded Nat in the
source, which never masks it). -/
structure LSN where
  value : Nat
deriving DecidableEq, Repr

/-- Embeds LSN._parse_string composed with the string branch of
LSN.__init__: requires exactly one '/' (the source raises on zero
slashes explicitly and on more than one via tuple unpacking), an empty
high half means zero, each half is parsed as hexadecimal. -/
def LSN.parse_string (s : String) : Option LSN :=
  match splitSlash s.data with
  | [high_str, low_str] =>
    match (if high_str = [] then some 0 else hexStrVal? high_str), hexStrVal? low_str with
    | some high, some low => some ⟨(high <<< 32) ||| low⟩
    | _, _ => none
  | _ => none

/-- Embeds the LSN.file_id property: high 32 bits. -/
def LSN.file_id (l : LSN) : Nat := l.value >>> 32

/-- Embeds the LSN.file_offset property: low 32 bits. -/
def LSN.file_offset (l : LSN) : Nat := l.value &&& 0xFFFFFFFF

/-- Embeds LSN.to_string (also LSN.__str__): uppercase hex halves joined
by a slash, f"{file_id:X}/{file_offset:X}". -/
def LSN.to_string (l : LSN) : String :=
  String.mk (natToHex l.file_id ++ '/' :: natToHex l.file_offset)

/-! ## Python bytes objects

An immutable Python bytes value is modelled as its length together with
its indexing function (byte values below 256 for genuine bytes data).
Slicing is then arithmetic on indices, and a slice is materialised into
an explicit list only when its bytes are consumed, which keeps every
materialised list small even for 8 KiB pages and 16 MiB segments. -/

/-- A Python bytes object: length plus indexing function. -/
structure PyBytes where
  size : Nat
  byteAt : Nat → Nat

/-- The Python slice b[start:stop]: out-of-range bounds clamp, an empty
range yields the empty bytes. -/
def PyBytes.slice (b : PyBytes) (start stop : Nat) : PyBytes :=
  let s := min start b.size
  let t := max s (min stop b.size)
  ⟨t - s, fun i => b.byteAt (s + i)⟩

/-- The byte list of a bytes object (used when its content is consumed,
e.g. by struct.unpack or stored as record data). -/
def PyBytes.toList (b : PyBytes) : List Nat :=
  (List.range b.size).map b.byteAt

/-- A bytes object with the content of an explicit byte list. -/
def PyBytes.ofList (l : List Nat) : PyBytes :=
  ⟨l.length, fun i => l.getD i 0⟩

/-! ## Byte cursor (src/utils/binary_reader.py) -/

/-- Embeds BinaryReader: an immutable bytes buffer plus a position.  The
source also stores length = len(data) at construction; data is never
reassigned, so length is modelled as a function. -/
structure BinaryReader where
  data : PyBytes
  position : Nat

/-- Buffer length (the source's self.length field). -/
def BinaryReader.length (r : BinaryReader) : Nat := r.data.size

/-- Embeds BinaryReader.tell. -/
def BinaryReader.tell (r : BinaryReader) : Nat := r.position

/-- Embeds BinaryReader.remaining_bytes: max(0, length - position),
which is Nat subtraction. -/
def BinaryReader.remaining_bytes (r : BinaryReader) : Nat :=
  r.length - r.position

/-- Embeds BinaryReader.is_eof. -/
def BinaryReader.is_eof (r : BinaryReader) : Bool :=
  decide (r.position ≥ r.length)

/-- Embeds BinaryReader.read_bytes: the EOFError check precedes the
position update, so the error branch returns the unchanged state. -/
def BinaryReader.read_bytes (r : BinaryReader) (count : Nat) :
    Except String (List Nat) × BinaryReader :=
  if r.position + count > r.length then
    (.error "EOFError", r)
  else
    (.ok (r.data.slice r.position (r.position + count)).toList,
     { r with position := r.position + count })

/-- Embeds BinaryReader.peek_bytes: never raises, never moves the
position; returns the full remainder when fewer than count bytes
remain (Python slice data[position:]). -/
def BinaryReader.peek_bytes (r : BinaryReader) (count : Nat) :
    List Nat × BinaryReader :=
  if r.position + count > r.length then
    ((r.data.slice r.position r.data.size).toList, r)
  else
    ((r.data.slice r.position (r.position + count)).toList, r)

/-- Embeds BinaryReader.skip_bytes: EOFError check precedes the position
update. -/
def BinaryReader.skip_bytes (r : BinaryReader) (count : Nat) :
    Except String Unit × BinaryReader :=
  if r.position + count > r.length then
    (.error "EOFError", r)
  else
    (.ok (), { r with position := r.position + count })

/-- Embeds BinaryReader.seek.  The source also rejects negative
positions, which Nat cannot represent; every seek in the embedded code
passes a Nat. -/
def BinaryReader.seek (r : BinaryReader) (pos : Nat) :
    Except String Unit × BinaryReader :=
  if pos > r.length then
    (.error "ValueError", r)
  else
    (.ok (), { r with position := pos })

/-- Little-endian value of a byte string, as computed by struct.unpack
with formats B, H, I, Q on the slices the cursor returns. -/
def leNat (bs : List Nat) : Nat :=
  bs.foldr (fun b acc => b + 256 * acc) 0

/-- Sequencing helper for cursor computations: propagate an error
together with the state at which it was raised. -/
def rdBind {α β : Type} (x : Except String α × BinaryReader)
    (f : α → BinaryReader → Except String β × BinaryReader) :
    Except String β × BinaryReader :=
  match x with
  | (.ok a, r) => f a r
  | (.error e, r) => (.error e, r)

/-- Embeds BinaryReader.read_uint8. -/
def BinaryReader.read_uint8 (r : BinaryReader) : Except String Nat × BinaryReader :=
  rdBind (r.read_bytes 1) fun bs r' => (.ok (leNat bs), r')

/-- Embeds BinaryReader.read_uint16 (little-endian). -/
def BinaryReader.read_uint16 (r : BinaryReader) : Except String Nat × BinaryReader :=
  rdBind (r.read_bytes 2) fun bs r' => (.ok (leNat bs), r')

/-- Embeds BinaryReader.read_uint32 (little-endian). -/
def BinaryReader.read_uint32 (r : BinaryReader) : Except String Nat × BinaryReader :=
  rdBind (r.read_bytes 4) fun bs r' => (.ok (leNat bs), r')

/-- Embeds BinaryReader.read_uint64 (little-endian). -/
def BinaryReader.read_uint64 (r : BinaryReader) : Except String Nat × BinaryReader :=
  rdBind (r.read_bytes 8) fun bs r' => (.ok (leNat bs), r')

/-! ## XLOG record structures and parsing (src/core/wal_parser.py) -/

/-- Embeds the image dict built by XLogRecord._parse_block_image. -/
structure BlockImage where
  length : Nat
  hole_offset : Nat
  bimg_info : Nat
  hole_length : Option Nat
  image_data : List Nat
deriving DecidableEq, Repr

/-- Embeds the block_info dict built by XLogRecord._parse_block_reference.
The derived boolean keys (has_image, has_data, will_init, same_rel,
fork_num) are functions of fork_flags and are modelled as definitions. -/
structure BlockRef where
  id : Nat
  fork_flags : Nat
  data_length : Nat
  image : Option BlockImage
  relfilenode : Option (Nat × Nat × Nat)
  block_num : Nat
  block_data : Option (List Nat)
deriving DecidableEq, Repr

/-- The has_image key of a block reference. -/
def BlockRef.has_image (b : BlockRef) : Bool := b.fork_flags &&& 0x10 ≠ 0

/-- The has_data key of a block reference. -/
def BlockRef.has_data (b : BlockRef) : Bool := b.fork_flags &&& 0x20 ≠ 0

/-- The same_rel key of a block reference. -/
def BlockRef.same_rel (b : BlockRef) : Bool := b.fork_flags &&& 0x80 ≠ 0

/-- Embeds XLogRecord: the fixed 24-byte header fields plus the parsed
block references and main data. -/
structure XLogRecord where
  xl_tot_len : Nat
  xl_xid : Nat
  xl_prev : LSN
  xl_info : Nat
  xl_rmid : Nat
  xl_crc : Nat
  blocks : List BlockRef
  main_data : List Nat
deriving DecidableEq, Repr

/-- The source's XLogRecord.SIZEOF_XLOG_RECORD constant. -/
def SIZEOF_XLOG_RECORD : Nat := 24

/-- Embeds XLogRecord.get_info: the low nibble of the info byte
(XLR_INFO_MASK = 0x0F). -/
def XLogRecord.get_info (rec : XLogRecord) : Nat := rec.xl_info &&& 0x0F

/-- Embeds XLogRecord.get_rmgr_info: the high nibble of the info byte
(XLR_RMGR_INFO_MASK = 0xF0). -/
def XLogRecord.get_rmgr_info (rec : XLogRecord) : Nat := rec.xl_info &&& 0xF0

/-- Embeds XLogRecord._parse_block_image: fills block_info['image']. -/
def parseBlockImage (r : BinaryReader) :
    Except String BlockImage × BinaryReader :=
  rdBind r.read_uint16 fun length r =>
  rdBind r.read_uint16 fun hole_offset r =>
  rdBind r.read_uint8 fun bimg_info r =>
  if bimg_info &&& 0x01 ≠ 0 ∧ bimg_info &&& 0x1C ≠ 0 then
    rdBind r.read_uint16 fun hole_length r =>
    rdBind (r.read_bytes length) fun image_data r =>
    (.ok ⟨length, hole_offset, bimg_info, some hole_length, image_data⟩, r)
  else
    rdBind (r.read_bytes length) fun image_data r =>
    (.ok ⟨length, hole_offset, bimg_info, none, image_data⟩, r)

/-- Embeds XLogRecord._parse_block_reference (one ordinary block
reference, tag byte not yet consumed). -/
def parseBlockReference (r : BinaryReader) :
    Except String BlockRef × BinaryReader :=
  rdBind r.read_uint8 fun block_id r =>
  rdBind r.read_uint8 fun fork_flags r =>
  rdBind r.read_uint16 fun data_length r =>
  rdBind
    (if fork_flags &&& 0x10 ≠ 0 then
      rdBind (parseBlockImage r) fun img r => (.ok (some img), r)
     else (.ok none, r)) fun image r =>
  rdBind
    (if ¬ (fork_flags &&& 0x80 ≠ 0) then
      rdBind r.read_uint32 fun spcNode r =>
      rdBind r.read_uint32 fun dbNode r =>
      rdBind r.read_uint32 fun relNode r =>
      (.ok (some (spcNode, dbNode, relNode)), r)
     else (.ok none, r)) fun relfilenode r =>
  rdBind r.read_uint32 fun block_num r =>
  rdBind
    (if fork_flags &&& 0x20 ≠ 0 then
      rdBind (r.read_bytes data_length) fun d r => (.ok (some d), r)
     else (.ok none, r)) fun block_data r =>
  (.ok ⟨block_id, fork_flags, data_length, image, relfilenode, block_num, block_data⟩, r)

/-- Embeds XLogRecord._parse_data_short: id byte, one length byte, then
the main data. -/
def parseDataShort (r : BinaryReader) :
    Except String (List Nat) × BinaryReader :=
  rdBind (r.read_bytes 1) fun _ r =>
  rdBind r.read_uint8 fun data_length r =>
  r.read_bytes data_length

/-- Embeds XLogRecord._parse_data_long: id byte, four length bytes, then
the main data. -/
def parseDataLong (r : BinaryReader) :
    Except String (List Nat) × BinaryReader :=
  rdBind (r.read_bytes 1) fun _ r =>
  rdBind r.read_uint32 fun data_length r =>
  r.read_bytes data_length

/-- Embeds the while loop of XLogRecord._parse_record_data.  data_end is
an Int because the source computes data_start + xl_tot_len - 24 with
Python integers, which is negative when xl_tot_len < 24 (the loop then
never runs).  Every iteration that continues advances the cursor by at
least three bytes, so fuel equal to the buffer length plus one makes the
embedding agree with the source whenever the source terminates. -/
def parseRecordDataLoop (data_end : Int) :
    Nat → BinaryReader → List BlockRef → List Nat →
    Except String (List BlockRef × List Nat) × BinaryReader
  | 0, r, blocks, main_data => (.ok (blocks.reverse, main_data), r)
  | fuel + 1, r, blocks, main_data =>
    if (r.tell : Int) < data_end then
      match r.peek_bytes 1 with
      | ([], r) => (.ok (blocks.reverse, main_data), r)
      | (block_id :: _, r) =>
        if block_id = 255 then
          rdBind (parseDataShort r) fun md r => (.ok (blocks.reverse, md), r)
        else if block_id = 254 then
          rdBind (parseDataLong r) fun md r => (.ok (blocks.reverse, md), r)
        else if block_id = 253 ∨ block_id = 252 then
          rdBind (r.read_bytes 1) fun _ r =>
          rdBind (if block_id = 253 then r.skip_bytes 2 else r.skip_bytes 4) fun _ r =>
          parseRecordDataLoop data_end fuel r blocks main_data
        else
          rdBind (parseBlockReference r) fun blk r =>
          parseRecordDataLoop data_end fuel r (blk :: blocks) main_data
    else
      (.ok (blocks.reverse, main_data), r)

/-- Embeds XLogRecord.__init__ (header reads followed by
_parse_record_data): parses one record at the cursor. -/
def XLogRecord.parse (r : BinaryReader) :
    Except String XLogRecord × BinaryReader :=
  rdBind r.read_uint32 fun xl_tot_len r =>
  rdBind r.read_uint32 fun xl_xid r =>
  rdBind r.read_uint64 fun xl_prev_value r =>
  rdBind r.read_uint8 fun xl_info r =>
  rdBind r.read_uint8 fun xl_rmid r =>
  rdBind (r.skip_bytes 2) fun _ r =>
  rdBind r.read_uint32 fun xl_crc r =>
  let data_start := r.tell
  let data_end : Int := (data_start : Int) + (xl_tot_len : Int) - (SIZEOF_XLOG_RECORD : Int)
  rdBind (parseRecordDataLoop data_end (r.data.size + 1) r [] []) fun bm r =>
  (.ok ⟨xl_tot_len, xl_xid, ⟨xl_prev_value⟩, xl_info, xl_rmid, xl_crc, bm.1, bm.2⟩, r)

/-- Embeds WALPageHeader (short page header, 24 bytes). -/
structure WALPageHeader where
  magic : Nat
  info : Nat
  tli : Nat
  prev_page_lsn : LSN
  page_lsn : LSN
deriving DecidableEq, Repr

/-- The source's WALPageHeader.SIZEOF_WAL_PAGE_HEADER constant. -/
def SIZEOF_WAL_PAGE_HEADER : Nat := 24

/-- Embeds WALPageHeader.__init__. -/
def WALPageHeader.parse (r : BinaryReader) :
    Except String WALPageHeader × BinaryReader :=
  rdBind r.read_uint16 fun magic r =>
  rdBind r.read_uint16 fun info r =>
  rdBind r.read_uint32 fun tli r =>
  rdBind r.read_uint64 fun prev_page_lsn r =>
  rdBind r.read_uint64 fun page_lsn r =>
  (.ok ⟨magic, info, tli, ⟨prev_page_lsn⟩, ⟨page_lsn⟩⟩, r)

/-! ## XLogReader (src/core/xlog_reader.py)

The reader holds an open file handle and a current_position that the
source keeps in sync with the handle's offset (both start at zero,
_seek_to_lsn moves both, each page read advances both by the number of
bytes read).  The embedding therefore carries a single position and
models the handle's contents as the file's byte list; file_size is the
length of that list (os.path.getsize of the same file). -/

/-- The source's WAL_BLOCK_SIZE constant (8 KiB pages). -/
def WAL_BLOCK_SIZE : Nat := 8192

/-- The source's XLOG_PAGE_MAGIC constant. -/
def XLOG_PAGE_MAGIC : Nat := 0xD099

/-- Embeds the record-scan while loop of XLogReader._read_page_records,
operating on a cursor over one page's bytes.  A record whose total_len
reaches past the page is abandoned by the break on
record_start + total_len > len(page_data); a parse exception
(struct.error, EOFError) also breaks.  The seek error branch is
unreachable because the seek target was just checked to be below the
page length.  An iteration that continues moves record_start forward
except when total_len = 0, where the source loops forever; fuel equal
to the page length plus one exhausts exactly in that divergent case. -/
def pageScanLoop : Nat → BinaryReader → List XLogRecord → List XLogRecord
  | 0, _, records => records.reverse
  | fuel + 1, reader, records =>
    if reader.tell < reader.length then
      if reader.remaining_bytes < SIZEOF_XLOG_RECORD then records.reverse
      else
        let record_start := reader.tell
        match reader.peek_bytes 4 with
        | (tl_bytes, reader) =>
          if tl_bytes.length < 4 then records.reverse
          else
            let total_len := leNat tl_bytes
            if record_start + total_len > reader.length then records.reverse
            else
              match XLogRecord.parse reader with
              | (.error _, _) => records.reverse
              | (.ok record, reader) =>
                let next_record := record_start + total_len
                if next_record ≥ reader.length then (record :: records).reverse
                else
                  match reader.seek next_record with
                  | (.ok _, reader) => pageScanLoop fuel reader (record :: records)
                  | (.error _, _) => (record :: records).reverse
    else records.reverse

/-- Embeds XLogReader._read_page_records: returns the page's records and
the updated current_position.  The handle read
self.file_handle.read(WAL_BLOCK_SIZE) at handle offset current_position
is the slice [pos, pos + WAL_BLOCK_SIZE) of the file bytes. -/
def readPageRecords (fileData : PyBytes) (pos : Nat) :
    List XLogRecord × Nat :=
  let file_size := fileData.size
  if pos + WAL_BLOCK_SIZE > file_size then ([], pos)
  else
    let page_data := fileData.slice pos (pos + WAL_BLOCK_SIZE)
    let pos := pos + page_data.size
    if page_data.size < WAL_BLOCK_SIZE then ([], pos)
    else
      match WALPageHeader.parse ⟨page_data, 0⟩ with
      | (.error _, _) => ([], pos)
      | (.ok page_header, reader) =>
        if page_header.magic ≠ XLOG_PAGE_MAGIC then ([], pos)
        else (pageScanLoop (page_data.size + 1) reader [], pos)

/-- Truth value of the Python guard (end_lsn and v > end_lsn): false
when no end_lsn is set. -/
def lsnExceeds (v : Nat) : Option Nat → Bool
  | some e => decide (v > e)
  | none => false

/-- Embeds the per-record loop inside XLogReader.read_records: yield each
record of a page until one whose _record_lsn (the record's xl_prev,
which the source uses as an approximation of its LSN) exceeds end_lsn;
the Bool reports whether that return was taken. -/
def emitUntil (endL : Option Nat) : List XLogRecord → List XLogRecord × Bool
  | [] => ([], false)
  | rec :: rest =>
    if lsnExceeds rec.xl_prev.value endL then
      ([], true)
    else
      match emitUntil endL rest with
      | (more, stopped) => (rec :: more, stopped)

/-- Embeds the page while-loop of XLogReader.read_records.  When a page
read neither advances the position nor ends iteration the source loops
forever; fuel exhaustion models that divergence. -/
def pagesLoop (fileData : PyBytes) (endL : Option Nat) :
    Nat → Nat → List XLogRecord
  | 0, _ => []
  | fuel + 1, pos =>
    if pos < fileData.size then
      if lsnExceeds pos endL then []
      else
        let pr := readPageRecords fileData pos
        match emitUntil endL pr.1 with
        | (emitted, true) => emitted
        | (emitted, false) => emitted ++ pagesLoop fileData endL fuel pr.2
    else []

/-- Embeds XLogReader.read_records: handle = none means the context
manager was never entered (file_handle is None), on which the source
raises RuntimeError before yielding anything; otherwise seek to the
page-aligned offset of start_lsn when given and stream the pages. -/
def XLogReader.read_records (handle : Option PyBytes)
    (start_lsn end_lsn : Option LSN) : Except String (List XLogRecord) :=
  match handle with
  | none => .error "RuntimeError: XLogReader未正确初始化，请使用with语句"
  | some fileData =>
    let pos : Nat :=
      match start_lsn with
      | some lsn => lsn.file_offset / WAL_BLOCK_SIZE * WAL_BLOCK_SIZE
      | none => 0
    .ok (pagesLoop fileData (end_lsn.map LSN.value)
          (fileData.size / WAL_BLOCK_SIZE + 2) pos)

/-! ## Transaction tracker (src/core/transaction_manager.py)

Python dicts are modelled as association lists with unique keys:
assignment updates an existing key in place and appends a new one,
matching dict insertion-order semantics; del removes the entry. -/

/-- Lookup in a dict model. -/
def dictGet? {α : Type} : List (Nat × α) → Nat → Option α
  | [], _ => none
  | (k', v') :: rest, k => if k' = k then some v' else dictGet? rest k

/-- Membership in a dict model. -/
def dictContains {α : Type} (d : List (Nat × α)) (k : Nat) : Bool :=
  (dictGet? d k).isSome

/-- Assignment in a dict model: update in place or append. -/
def dictSet {α : Type} : List (Nat × α) → Nat → α → List (Nat × α)
  | [], k, v => [(k, v)]
  | (k', v') :: rest, k, v =>
    if k' = k then (k, v) :: rest else (k', v') :: dictSet rest k v

/-- Deletion in a dict model. -/
def dictErase {α : Type} : List (Nat × α) → Nat → List (Nat × α)
  | [], _ => []
  | (k', v') :: rest, k => if k' = k then rest else (k', v') :: dictErase rest k

/-- Embeds the RMGR_IDS table of src/core/wal_parser.py. -/
def RMGR_IDS : List (Nat × String) :=
  [(0, "XLOG"), (1, "Transaction"), (2, "Storage"), (3, "CLOG"),
   (4, "Database"), (5, "Tablespace"), (6, "MultiXact"), (7, "RelMap"),
   (8, "Standby"), (9, "Heap2"), (10, "Heap"), (11, "Btree"),
   (12, "Hash"), (13, "Gin"), (14, "Gist"), (15, "Sequence"),
   (16, "SPGist"), (17, "BRIN"), (18, "Generic"), (19, "Logical"),
   (20, "Dist"), (21, "CommitTs"), (22, "ReplicationOrigin"),
   (23, "ReplicationSlot"), (24, "Heap3")]

/-- Embeds get_rmgr_name of src/core/wal_parser.py. -/
def get_rmgr_name (rmid : Nat) : String :=
  match dictGet? RMGR_IDS rmid with
  | some name => name
  | none => s!"Unknown({rmid})"

/-- Embeds the TransactionState enum. -/
inductive TransactionState where
  | in_progress
  | committed
  | aborted
  | prepared
deriving DecidableEq, Repr

/-- Embeds the TransactionInfo dataclass. -/
structure TransactionInfo where
  xid : Nat
  state : TransactionState
  start_lsn : Option String
  commit_lsn : Option String
  records : List XLogRecord
  savepoints : List Nat
  subtransactions : List Nat
  parent_xid : Option Nat
deriving DecidableEq, Repr

/-- Embeds TransactionInfo.add_record. -/
def TransactionInfo.add_record (t : TransactionInfo) (record : XLogRecord) :
    TransactionInfo :=
  { t with records := t.records ++ [record] }

/-- Embeds TransactionInfo.add_subtransaction (set add: no duplicate). -/
def TransactionInfo.add_subtransaction (t : TransactionInfo) (subxid : Nat) :
    TransactionInfo :=
  if t.subtransactions.contains subxid then t
  else { t with subtransactions := t.subtransactions ++ [subxid] }

/-- Embeds the TransactionManager state. -/
structure TransactionManager where
  transactions : List (Nat × TransactionInfo)
  committed_transactions : List (Nat × TransactionInfo)
  aborted_transactions : List (Nat × TransactionInfo)
  subtransaction_map : List (Nat × Nat)
  total_transactions : Nat
  committed_count : Nat
  aborted_count : Nat
deriving DecidableEq, Repr

/-- Embeds TransactionManager.__init__. -/
def TransactionManager.init : TransactionManager :=
  ⟨[], [], [], [], 0, 0, 0⟩

/-- Embeds TransactionManager._create_transaction. -/
def TransactionManager.create_transaction (tm : TransactionManager)
    (xid : Nat) (record : XLogRecord) : TransactionManager :=
  let transaction : TransactionInfo :=
    ⟨xid, .in_progress, some record.xl_prev.to_string, none, [], [], [], none⟩
  let transaction := transaction.add_record record
  { tm with transactions := dictSet tm.transactions xid transaction,
            total_transactions := tm.total_transactions + 1 }

/-- Embeds TransactionManager._commit_transaction: guarded on the xid
being active; moves it (and each subxid still active) to committed with
commit_lsn = str(record.xl_prev). -/
def TransactionManager.commit_transaction (tm : TransactionManager)
    (xid : Nat) (record : XLogRecord) : TransactionManager :=
  match dictGet? tm.transactions xid with
  | none => tm
  | some transaction =>
    let transaction := { transaction with
      state := .committed, commit_lsn := some record.xl_prev.to_string }
    let transaction := transaction.add_record record
    let tm := { tm with
      committed_transactions := dictSet tm.committed_transactions xid transaction,
      transactions := dictErase tm.transactions xid,
      committed_count := tm.committed_count + 1 }
    transaction.subtransactions.foldl (fun tm subxid =>
      match dictGet? tm.transactions subxid with
      | none => tm
      | some sub =>
        let sub := { sub with
          state := .committed, commit_lsn := some record.xl_prev.to_string }
        { tm with
          committed_transactions := dictSet tm.committed_transactions subxid sub,
          transactions := dictErase tm.transactions subxid }) tm

/-- Embeds TransactionManager._abort_transaction (symmetric to commit,
into the aborted map; the source also writes the abort position into
the commit_lsn field). -/
def TransactionManager.abort_transaction (tm : TransactionManager)
    (xid : Nat) (record : XLogRecord) : TransactionManager :=
  match dictGet? tm.transactions xid with
  | none => tm
  | some transaction =>
    let transaction := { transaction with
      state := .aborted, commit_lsn := some record.xl_prev.to_string }
    let transaction := transaction.add_record record
    let tm := { tm with
      aborted_transactions := dictSet tm.aborted_transactions xid transaction,
      transactions := dictErase tm.transactions xid,
      aborted_count := tm.aborted_count + 1 }
    transaction.subtransactions.foldl (fun tm subxid =>
      match dictGet? tm.transactions subxid with
      | none => tm
      | some sub =>
        let sub := { sub with
          state := .aborted, commit_lsn := some record.xl_prev.to_string }
        { tm with
          aborted_transactions := dictSet tm.aborted_transactions subxid sub,
          transactions := dictErase tm.transactions subxid }) tm

/-- Embeds TransactionManager._prepare_transaction. -/
def TransactionManager.prepare_transaction (tm : TransactionManager)
    (xid : Nat) (record : XLogRecord) : TransactionManager :=
  match dictGet? tm.transactions xid with
  | none => tm
  | some transaction =>
    let transaction := { transaction with state := .prepared }
    let transaction := transaction.add_record record
    { tm with transactions := dictSet tm.transactions xid transaction }

/-- Embeds TransactionManager._commit_prepared_transaction. -/
def TransactionManager.commit_prepared_transaction (tm : TransactionManager)
    (xid : Nat) (record : XLogRecord) : TransactionManager :=
  if dictContains tm.transactions xid then tm.commit_transaction xid record
  else tm

/-- Embeds TransactionManager._abort_prepared_transaction. -/
def TransactionManager.abort_prepared_transaction (tm : TransactionManager)
    (xid : Nat) (record : XLogRecord) : TransactionManager :=
  if dictContains tm.transactions xid then tm.abort_transaction xid record
  else tm

/-- Embeds TransactionManager._process_assignment: the body of the
source method is a bare pass (the subtransaction association described
in its docstring is not implemented). -/
def TransactionManager.process_assignment (tm : TransactionManager)
    (_record : XLogRecord) : TransactionManager :=
  tm

/-- Embeds TransactionManager._process_invalid (a pass). -/
def TransactionManager.process_invalid (tm : TransactionManager)
    (_record : XLogRecord) : TransactionManager :=
  tm

/-- Embeds TransactionManager._process_other_transaction_record. -/
def TransactionManager.process_other_transaction_record
    (tm : TransactionManager) (record : XLogRecord) (_info : Nat) :
    TransactionManager :=
  let xid := record.xl_xid
  if ¬ dictContains tm.transactions xid then
    tm.create_transaction xid record
  else
    match dictGet? tm.transactions xid with
    | some t => { tm with transactions := dictSet tm.transactions xid (t.add_record record) }
    | none => tm

/-- Embeds TransactionManager._process_transaction_record: dispatch on
get_info(), the low nibble of the info byte.  All comparisons against
0x10 through 0x60 are kept from the source even though get_info() is at
most 0x0F. -/
def TransactionManager.process_transaction_record (tm : TransactionManager)
    (record : XLogRecord) : TransactionManager :=
  let info := record.get_info
  let xid := record.xl_xid
  if info = 0x00 then tm.commit_transaction xid record
  else if info = 0x10 then tm.abort_transaction xid record
  else if info = 0x20 then tm.prepare_transaction xid record
  else if info = 0x30 then tm.commit_prepared_transaction xid record
  else if info = 0x40 then tm.abort_prepared_transaction xid record
  else if info = 0x50 then tm.process_assignment record
  else if info = 0x60 then tm.process_invalid record
  else tm.process_other_transaction_record record info

/-- Embeds TransactionManager._process_general_record.  Note the source
first creates the transaction (which already appends the record) and
then unconditionally appends the record again, so a fresh xid's record
list starts with two copies. -/
def TransactionManager.process_general_record (tm : TransactionManager)
    (record : XLogRecord) : TransactionManager :=
  let xid := record.xl_xid
  let tm :=
    if ¬ dictContains tm.transactions xid then tm.create_transaction xid record
    else tm
  match dictGet? tm.transactions xid with
  | some t => { tm with transactions := dictSet tm.transactions xid (t.add_record record) }
  | none => tm

/-- Embeds TransactionManager.process_record. -/
def TransactionManager.process_record (tm : TransactionManager)
    (record : XLogRecord) : TransactionManager :=
  if get_rmgr_name record.xl_rmid = "Transaction" then
    tm.process_transaction_record record
  else if record.xl_xid ≠ 0 then
    tm.process_general_record record
  else tm

/-- Embeds TransactionManager.add_subtransaction. -/
def TransactionManager.add_subtransaction (tm : TransactionManager)
    (parent_xid subxid : Nat) : TransactionManager :=
  let tm := { tm with
    subtransaction_map := dictSet tm.subtransaction_map subxid parent_xid }
  let tm :=
    match dictGet? tm.transactions parent_xid with
    | some p => { tm with
        transactions := dictSet tm.transactions parent_xid (p.add_subtransaction subxid) }
    | none => tm
  if ¬ dictContains tm.transactions subxid then
    let subtransaction : TransactionInfo :=
      ⟨subxid, .in_progress, none, none, [], [], [], some parent_xid⟩
    { tm with transactions := dictSet tm.transactions subxid subtransaction }
  else tm

/-- Embeds TransactionManager.get_transaction: active, then committed,
then aborted. -/
def TransactionManager.get_transaction (tm : TransactionManager)
    (xid : Nat) : Option TransactionInfo :=
  match dictGet? tm.transactions xid with
  | some t => some t
  | none =>
    match dictGet? tm.committed_transactions xid with
    | some t => some t
    | none => dictGet? tm.aborted_transactions xid

/-- Embeds TransactionManager.is_transaction_active. -/
def TransactionManager.is_transaction_active (tm : TransactionManager)
    (xid : Nat) : Bool :=
  dictContains tm.transactions xid

/-- Embeds TransactionManager.is_transaction_committed. -/
def TransactionManager.is_transaction_committed (tm : TransactionManager)
    (xid : Nat) : Bool :=
  dictContains tm.committed_transactions xid

/-- Embeds TransactionManager.is_transaction_aborted. -/
def TransactionManager.is_transaction_aborted (tm : TransactionManager)
    (xid : Nat) : Bool :=
  dictContains tm.aborted_transactions xid

/-- Processing a list of records in order (repeated process_record
calls, as the spec's end-to-end scenarios describe). -/
def TransactionManager.process_all (tm : TransactionManager)
    (recs : List XLogRecord) : TransactionManager :=
  recs.foldl TransactionManager.process_record tm

/-! ## Test fixtures

Concrete byte images and record values realising the spec's end-to-end
scenarios, used by the closed theorems below. -/

/-- Fixture: a decoded record with the given xid, info byte, rmid and
prev-LSN and an empty body, as the decoder emits for a record with no
payload. -/
def mkRec (xid info rmid prev : Nat) : XLogRecord :=
  ⟨24, xid, ⟨prev⟩, info, rmid, 0, [], []⟩

/-- Fixture: concatenation of two bytes objects. -/
def pbConcat (a b : PyBytes) : PyBytes :=
  ⟨a.size + b.size, fun i => if i < a.size then a.byteAt i else b.byteAt (i - a.size)⟩

/-- Fixture: n zero bytes. -/
def pbZeros (n : Nat) : PyBytes := ⟨n, fun _ => 0⟩

/-- Fixture: little-endian encoding of n on w bytes. -/
def leBytes : Nat → Nat → List Nat
  | 0, _ => []
  | w + 1, n => n % 256 :: leBytes w (n / 256)

/-- Fixture: a 24-byte short page header image with the good magic. -/
def pageHdrBytes (info tli prev plsn : Nat) : List Nat :=
  leBytes 2 0xD099 ++ leBytes 2 info ++ leBytes 4 tli ++
  leBytes 8 prev ++ leBytes 8 plsn

/-- Fixture: the first 26 bytes of a record image: the 24-byte header
(total_len, xid, prev, info byte, rmid, padding, crc 0) followed by a
short-main-data marker with length 0, so the body parser stops there. -/
def recFront (tot xid prev info rmid : Nat) : List Nat :=
  leBytes 4 tot ++ leBytes 4 xid ++ leBytes 8 prev ++ [info, rmid, 0, 0] ++
  leBytes 4 0 ++ [255, 0]

/-- Fixture: a full record image of total_len bytes: the 26-byte front
padded with zeros. -/
def recPB (tot xid prev info rmid : Nat) : PyBytes :=
  pbConcat (.ofList (recFront tot xid prev info rmid)) (pbZeros (tot - 26))

/-- Fixture for the cross-page scenario: one 8192-byte page holding a
filler record of total_len 8152 (which ends 16 bytes before the page
boundary) followed by the first 16 bytes of a record with
total_len = 200 whose remaining bytes would live on the next page. -/
def c3file : PyBytes :=
  pbConcat (.ofList (pageHdrBytes 0 1 0 0))
    (pbConcat (recPB 8152 1 0 0 10)
      (.ofList ((recFront 200 7 0x1FE8 0 10).take 16)))

/-- Fixture for the range-filter scenario: one 8192-byte page holding a
chained sequence of four Heap records at offsets 0x18, 0x100, 0x200 and
0x300 (xids 1 through 4), each record's prev pointing at the one before
it, the last one filling the page exactly. -/
def c4file : PyBytes :=
  pbConcat (.ofList (pageHdrBytes 0 1 0 0)) <|
  pbConcat (recPB 232 1 0 0 10) <|
  pbConcat (recPB 256 2 0x18 0 10) <|
  pbConcat (recPB 256 3 0x100 0 10) (recPB 7424 4 0x200 0 10)

/-- Fixture: the tracker state after the interleaved-DML scenario
(Heap xid 100, Heap xid 101, Transaction info byte 0x10 xid 100). -/
def c1Tracker : TransactionManager :=
  TransactionManager.init.process_all
    [mkRec 100 0 10 0, mkRec 101 0 10 0x18, mkRec 100 0x10 1 0x30]

/-- Fixture: a Transaction COMMIT record (info byte 0x00) for xid 42. -/
def c2CommitRec : XLogRecord := mkRec 42 0 1 0x16B37B0

/-- Fixture: a Heap record bearing xid 42. -/
def c2HeapRec : XLogRecord := mkRec 42 0 10 0x100

/-- Fixture: the tracker state after Heap xid 5, Transaction COMMIT
xid 5, then Heap xid 5 again. -/
def c5Tracker : TransactionManager :=
  TransactionManager.init.process_all
    [mkRec 5 0 10 0x10, mkRec 5 0 1 0x20, mkRec 5 0 10 0x30]

/-- Fixture: the tracker state after a Transaction record with the
ASSIGNMENT info byte 0x50 on xid 3 followed by a Transaction COMMIT of
xid 3. -/
def c6Tracker : TransactionManager :=
  TransactionManager.init.process_all
    [mkRec 3 0x50 1 0x10, mkRec 3 0 1 0x20]

/-! ## Character classification for the LSN text form -/

/-- An uppercase hexadecimal digit character (the alphabet of the
round-trip property). -/
def isUpperHexDigit (c : Char) : Prop :=
  ('0' ≤ c ∧ c ≤ '9') ∨ ('A' ≤ c ∧ c ≤ 'F')

instance (c : Char) : Decidable (isUpperHexDigit c) := by
  unfold isUpperHexDigit; infer_instance

/-- The value of an uppercase hexadecimal digit character. -/
def hexDigitVal (c : Char) : Nat :=
  if c ≤ '9' then c.toNat - 48 else c.toNat - 55

/-- The numeric value of an uppercase-hex digit string (most significant
digit first). -/
def hexVal (l : List Char) : Nat :=
  Nat.ofDigits 16 ((l.map hexDigitVal).reverse)

/-! ## Helper lemmas -/

theorem char_le_iff {a b : Char} : a ≤ b ↔ a.toNat ≤ b.toNat := by
  simp [Char.le_def, UInt32.le_def, BitVec.le_def]
  rfl

theorem upperHex_toNat {c : Char} (h : isUpperHexDigit c) :
    (48 ≤ c.toNat ∧ c.toNat ≤ 57) ∨ (65 ≤ c.toNat ∧ c.toNat ≤ 70) := by
  rcases h with ⟨h1, h2⟩ | ⟨h1, h2⟩ <;> rw [char_le_iff] at h1 h2
  · exact Or.inl ⟨h1, h2⟩
  · exact Or.inr ⟨h1, h2⟩

theorem hexDigitVal_eq (c : Char) :
    hexDigitVal c = if c.toNat ≤ 57 then c.toNat - 48 else c.toNat - 55 := by
  rw [hexDigitVal]
  by_cases h : c ≤ '9'
  · rw [if_pos h, if_pos (show c.toNat ≤ 57 from char_le_iff.mp h)]
  · rw [if_neg h, if_neg (show ¬ c.toNat ≤ 57 from fun hc => h (char_le_iff.mpr hc))]

theorem hexCharVal_of_upper (c : Char) (h : isUpperHexDigit c) :
    hexCharVal? c = some (hexDigitVal c) := by
  rcases h with ⟨h1, h2⟩ | ⟨h1, h2⟩
  · rw [hexCharVal?, if_pos ⟨h1, h2⟩, hexDigitVal, if_pos h2]
  · have h9 : ¬ c ≤ '9' := fun hcon => by
      have h57 : c.toNat ≤ 57 := char_le_iff.mp hcon
      have h65 : 65 ≤ c.toNat := char_le_iff.mp h1
      omega
    rw [hexCharVal?, if_neg (by tauto), if_pos ⟨h1, h2⟩, hexDigitVal, if_neg h9]

theorem hexDigitVal_lt (c : Char) (h : isUpperHexDigit c) : hexDigitVal c < 16 := by
  have := upperHex_toNat h
  rw [hexDigitVal_eq]
  split <;> omega

theorem hexDigitCh_hexDigitVal (c : Char) (h : isUpperHexDigit c) :
    hexDigitCh (hexDigitVal c) = c := by
  have hb := upperHex_toNat h
  rcases hb with ⟨h1, h2⟩ | ⟨h1, h2⟩
  · rw [hexDigitVal_eq, if_pos h2, hexDigitCh, if_pos (by omega),
      show 48 + (c.toNat - 48) = c.toNat by omega]
    exact Char.ofNat_toNat c
  · rw [hexDigitVal_eq, if_neg (by omega), hexDigitCh, if_neg (by omega),
      show 55 + (c.toNat - 55) = c.toNat by omega]
    exact Char.ofNat_toNat c

theorem hexDigitVal_ne_zero (c : Char) (h : isUpperHexDigit c) (hc : c ≠ '0') :
    hexDigitVal c ≠ 0 := by
  have hb := upperHex_toNat h
  have hinj : c.toNat ≠ 48 := by
    intro he
    exact hc (by rw [← Char.ofNat_toNat c, he])
  rw [hexDigitVal_eq]
  split <;> omega

theorem hexStrValAux_eq (l : List Char) (h : ∀ c ∈ l, isUpperHexDigit c) :
    ∀ acc, hexStrValAux acc l = some (acc * 16 ^ l.length + hexVal l) := by
  induction l with
  | nil => intro acc; simp [hexStrValAux, hexVal, Nat.ofDigits_nil]
  | cons c cs ih =>
    intro acc
    have hc : isUpperHexDigit c := h c (List.mem_cons_self c cs)
    have hcs : ∀ x ∈ cs, isUpperHexDigit x := fun x hx => h x (List.mem_cons_of_mem c hx)
    rw [hexStrValAux, hexCharVal_of_upper c hc]
    show hexStrValAux (acc * 16 + hexDigitVal c) cs = _
    rw [ih hcs (acc * 16 + hexDigitVal c)]
    congr 1
    rw [hexVal, hexVal, List.map_cons, List.reverse_cons, Nat.ofDigits_append]
    simp only [List.length_cons, List.length_reverse, List.length_map,
      Nat.ofDigits_singleton]
    ring

theorem hexStrVal_eq (l : List Char) (hne : l ≠ [])
    (h : ∀ c ∈ l, isUpperHexDigit c) : hexStrVal? l = some (hexVal l) := by
  rw [hexStrVal?, if_neg hne, hexStrValAux_eq l h 0]
  simp

theorem hexVal_lt (l : List Char) (h : ∀ c ∈ l, isUpperHexDigit c)
    (hlen : l.length ≤ 8) : hexVal l < 2 ^ 32 := by
  have hbound : hexVal l < 16 ^ ((l.map hexDigitVal).reverse).length := by
    apply Nat.ofDigits_lt_base_pow_length (by norm_num)
    intro x hx
    rw [List.mem_reverse] at hx
    obtain ⟨c, hc, rfl⟩ := List.mem_map.mp hx
    exact hexDigitVal_lt c (h c hc)
  calc hexVal l < 16 ^ ((l.map hexDigitVal).reverse).length := hbound
    _ ≤ 16 ^ 8 := by
        apply Nat.pow_le_pow_right (by norm_num)
        simpa using hlen
    _ = 2 ^ 32 := by norm_num

theorem toHexAux_eq : ∀ fuel n acc, n ≤ fuel →
    toHexAux fuel n acc = ((Nat.digits 16 n).reverse.map hexDigitCh) ++ acc := by
  intro fuel
  induction fuel with
  | zero =>
    intro n acc hn
    interval_cases n
    simp [toHexAux]
  | succ fuel ih =>
    intro n acc hn
    rw [toHexAux]
    by_cases h0 : n = 0
    · subst h0; simp
    · rw [if_neg h0]
      rw [ih (n / 16) _ (by omega)]
      rw [Nat.digits_def' (by norm_num : (1:Nat) < 16) (Nat.pos_of_ne_zero h0)]
      simp [List.reverse_cons]

theorem natToHex_hexVal (l : List Char) (h : ∀ c ∈ l, isUpperHexDigit c)
    (hne : l ≠ []) (hlead : l.head? = some '0' → l = ['0']) :
    natToHex (hexVal l) = l := by
  by_cases hzero : l = ['0']
  · subst hzero
    have : hexVal ['0'] = 0 := by decide
    rw [this]
    rfl
  · have hhead : l.head? ≠ some '0' := fun hc => hzero (hlead hc)
    obtain ⟨c0, cs, rfl⟩ := List.exists_cons_of_ne_nil hne
    have hc0 : c0 ≠ '0' := fun hc => hhead (by simp [hc])
    have hdig : Nat.digits 16 (hexVal (c0 :: cs)) = ((c0 :: cs).map hexDigitVal).reverse := by
      apply Nat.digits_ofDigits 16 (by norm_num)
      · intro x hx
        rw [List.mem_reverse] at hx
        obtain ⟨c, hc, rfl⟩ := List.mem_map.mp hx
        exact hexDigitVal_lt c (h c hc)
      · intro hne2
        rw [List.getLast_reverse]
        simp only [List.head_map]
        exact hexDigitVal_ne_zero c0 (h c0 (List.mem_cons_self c0 cs)) hc0
    have hv0 : hexVal (c0 :: cs) ≠ 0 := by
      intro hc
      rw [hc] at hdig
      simp at hdig
    rw [natToHex, if_neg hv0, toHexAux_eq _ _ _ (Nat.le_succ _), hdig]
    rw [List.reverse_reverse, List.append_nil, List.map_map]
    have hcongr : ∀ c ∈ c0 :: cs, (hexDigitCh ∘ hexDigitVal) c = id c :=
      fun c hc => hexDigitCh_hexDigitVal c (h c hc)
    rw [List.map_congr_left hcongr, List.map_id]

theorem upperHexDigit_ne_slash (c : Char) (h : isUpperHexDigit c) : c ≠ '/' := by
  intro he
  have h47 := upperHex_toNat h
  rw [he] at h47
  exact absurd h47 (by decide)

theorem splitSlash_no_slash (l : List Char) (h : ∀ c ∈ l, c ≠ '/') :
    splitSlash l = [l] := by
  induction l with
  | nil => rfl
  | cons c cs ih =>
    rw [splitSlash, if_neg (h c (List.mem_cons_self c cs))]
    rw [ih (fun x hx => h x (List.mem_cons_of_mem c hx))]

theorem splitSlash_append (hi lo : List Char) (hh : ∀ c ∈ hi, c ≠ '/')
    (hl : ∀ c ∈ lo, c ≠ '/') : splitSlash (hi ++ '/' :: lo) = [hi, lo] := by
  induction hi with
  | nil =>
    rw [List.nil_append, splitSlash, if_pos rfl, splitSlash_no_slash lo hl]
  | cons c cs ih =>
    rw [List.cons_append, splitSlash, if_neg (hh c (List.mem_cons_self c cs))]
    rw [ih (fun x hx => hh x (List.mem_cons_of_mem c hx))]

theorem shiftLeft32_lor_eq (a b : Nat) (hb : b < 2 ^ 32) :
    (a <<< 32) ||| b = 2 ^ 32 * a + b := by
  apply Nat.eq_of_testBit_eq
  intro j
  rw [Nat.testBit_lor, Nat.testBit_shiftLeft, Nat.testBit_mul_pow_two_add a hb j]
  by_cases hj : j < 32
  · rw [if_pos hj]
    simp [Nat.not_le_of_lt hj]
  · rw [if_neg hj]
    have hbj : b.testBit j = false := by
      apply Nat.testBit_lt_two_pow
      calc b < 2 ^ 32 := hb
        _ ≤ 2 ^ j := Nat.pow_le_pow_right (by norm_num) (by omega)
    simp [Nat.le_of_not_lt hj, hbj]

theorem lsn_file_id_of_halves (a b : Nat) (hb : b < 2 ^ 32) :
    LSN.file_id ⟨(a <<< 32) ||| b⟩ = a := by
  rw [LSN.file_id, shiftLeft32_lor_eq a b hb, Nat.shiftRight_eq_div_pow]
  rw [Nat.mul_add_div (by norm_num), Nat.div_eq_of_lt hb]
  omega

theorem lsn_file_offset_of_halves (a b : Nat) (hb : b < 2 ^ 32) :
    LSN.file_offset ⟨(a <<< 32) ||| b⟩ = b := by
  rw [LSN.file_offset, shiftLeft32_lor_eq a b hb]
  rw [show (0xFFFFFFFF : Nat) = 2 ^ 32 - 1 by norm_num]
  rw [Nat.and_pow_two_sub_one_eq_mod, Nat.mul_add_mod, Nat.mod_eq_of_lt hb]

theorem PyBytes.slice_toList (b : PyBytes) (s t : Nat) :
    (b.slice s t).toList = (b.toList.take t).drop s := by
  apply List.ext_getElem
  · simp [PyBytes.slice, PyBytes.toList]
    omega
  · intro i h1 h2
    simp only [PyBytes.slice, PyBytes.toList, List.getElem_map, List.getElem_range,
      List.getElem_drop, List.getElem_take]
    congr 1
    simp only [PyBytes.slice, PyBytes.toList, List.length_map, List.length_range] at h1
    omega

theorem pyBytes_toList_length (b : PyBytes) : b.toList.length = b.size := by
  simp [PyBytes.toList]

/-! ## Claim theorems -/

/-- C1: the claim states that the tracker dispatches on the high-nibble
opcode info & 0x70, so that an info byte of 0x10 is ABORT and the
scenario Heap xid 100, Heap xid 101, Transaction info 0x10 xid 100
leaves xid 100 aborted and xid 101 active.  The code instead dispatches
on get_info() = info & 0x0F, under which the info byte 0x10 masks to
0x00 = COMMIT: after the scenario the aborted map is empty, xid 100 is
committed and xid 101 is active. -/
theorem c1_low_nibble_dispatch_commits_instead_of_aborting :
    c1Tracker.is_transaction_aborted 100 = false ∧
    c1Tracker.is_transaction_committed 100 = true ∧
    c1Tracker.is_transaction_active 101 = true ∧
    c1Tracker.aborted_transactions = [] ∧
    (mkRec 100 0x10 1 0x30).get_info = 0x00 := by
  decide

/-- C2 counterexample: the claim states that a single Transaction COMMIT
record for the fresh xid 42 yields committed_count = 1 and a committed
transaction for 42.  The code's _commit_transaction is guarded on the
xid being active, so on a fresh tracker the record does nothing:
committed_count stays 0 and get(42) returns nothing. -/
theorem c2_fresh_commit_is_dropped :
    (TransactionManager.init.process_record c2CommitRec).committed_count = 0 ∧
    (TransactionManager.init.process_record c2CommitRec).get_transaction 42 = none := by
  decide

/-- C2 amended: when xid 42 is already active (here through a prior Heap
record bearing it), processing the Transaction COMMIT record with
info byte 0x00 yields committed_count = 1 and a committed transaction
for 42 whose commit_lsn is the commit record's prev_lsn in text form. -/
theorem c2_commit_of_active_xid :
    ((TransactionManager.init.process_all [c2HeapRec, c2CommitRec]).committed_count = 1) ∧
    (((TransactionManager.init.process_all [c2HeapRec, c2CommitRec]).get_transaction 42).map
       (fun t => (t.state, t.commit_lsn)) =
     some (.committed, some "0/16B37B0")) ∧
    LSN.to_string ⟨0x16B37B0⟩ = "0/16B37B0" := by
  decide

/-- C5: the claim states that every xid lives in at most one of the
active, committed and aborted maps and that terminal xids are never
re-created.  The code's _process_general_record only consults the
active map, so after Heap xid 5, COMMIT xid 5, Heap xid 5 the xid 5 is
simultaneously active and committed. -/
theorem c5_terminal_xid_recreated_as_active :
    c5Tracker.is_transaction_active 5 = true ∧
    c5Tracker.is_transaction_committed 5 = true := by
  decide

/-- C6: the claim states that an ASSIGNMENT record (opcode 0x50) linking
subxid 7 to parent 3 followed by a COMMIT of 3 leaves both 3 and 7
committed with equal commit_lsn.  In the code the info byte 0x50 masks
to 0x00 under get_info() and is handled as a COMMIT of the inactive
xid 3 (a no-op), _process_assignment itself is a bare pass, and the
subsequent COMMIT of the still-unseen xid 3 is also dropped: every map
stays empty. -/
theorem c6_assignment_is_a_stub :
    c6Tracker.committed_transactions = [] ∧
    c6Tracker.transactions = [] ∧
    c6Tracker.get_transaction 3 = none ∧
    c6Tracker.get_transaction 7 = none ∧
    (mkRec 3 0x50 1 0x10).get_info = 0x00 := by
  decide

/-- C10: calling read_records when the context manager was never entered
(file_handle is None) produces the RuntimeError on first iteration of
the generator rather than an empty record stream, for every range
argument pair. -/
theorem c10_read_records_requires_open_handle (s e : Option LSN) :
    XLogReader.read_records none s e =
      .error "RuntimeError: XLogReader未正确初始化，请使用with语句" := by
  rfl

/-- C3: the claim states that a record whose body extends past its page
(here starting at offset 8176, 16 bytes before the boundary, with
total_len = 200) is decoded with its body stitched across the page
boundary.  The page scan of XLogReader._read_page_records instead
abandons any record that does not fit the page (the scan breaks when
fewer than 24 header bytes remain and when record_start + total_len
exceeds the page size): the only record decoded from the page is the
8152-byte filler, the cross-page record is dropped, and the position
moves to the next page. -/
theorem c3_cross_page_record_dropped :
    ((readPageRecords c3file 0).1.map XLogRecord.xl_tot_len = [8152]) ∧
    (readPageRecords c3file 0).2 = 8192 := by
  decide

/-- C4 counterexample: the claim states that records(start = 0/150,
end = 0/250) on a segment with records at 0/18, 0/100, 0/200, 0/300
(xids 1 to 4) yields exactly the record at 0/200 (xid 3).  The code
yields a different sequence. -/
theorem c4_range_filter_claim_fails :
    (XLogReader.read_records (some c4file) (some ⟨0x150⟩) (some ⟨0x250⟩)).toOption.map
      (List.map XLogRecord.xl_xid) ≠ some [3] := by
  decide

/-- C4 amended: read_records(start_lsn, end_lsn) seeks to the page-aligned
offset containing start_lsn and yields every record scanned from that
offset onwards without discarding those whose start LSN is below
start_lsn, stopping only before a record whose xl_prev (the previous
record's LSN, which the code uses as the record's LSN) exceeds end_lsn;
on the scenario segment all four records are yielded, since each one's
xl_prev is at most 0/250. -/
theorem c4_range_filter_actual_behavior :
    (XLogReader.read_records (some c4file) (some ⟨0x150⟩) (some ⟨0x250⟩)).toOption.map
      (List.map XLogRecord.xl_xid) = some [1, 2, 3, 4] ∧
    (XLogReader.read_records (some c4file) (some ⟨0x150⟩) (some ⟨0x250⟩)).toOption.map
      (List.map (fun r => r.xl_prev.value)) = some [0x0, 0x18, 0x100, 0x200] := by
  decide

/-- C7 counterexample: the claim states the round-trip
LSN(s).to_string() = s for every s matching the uppercase-hex pattern
with no leading zeros.  The string "0/100000000" matches the pattern
(its low half has nine digits, value 2^32), but the low half overflows
into the high 32 bits of the combined value: the round-trip returns
"1/0". -/
theorem c7_round_trip_fails_past_32_bits :
    (LSN.parse_string "0/100000000").map LSN.to_string = some "1/0" ∧
    (LSN.parse_string "0/100000000").map LSN.to_string ≠ some "0/100000000" := by
  decide

/-- C7 amended: constructing an LSN from a string of the form HIGH/LOW,
where each half is a nonempty uppercase-hex digit string with no leading
zero (a half that is exactly "0" being allowed) and the LOW half has at
most eight digits (value below 2^32), and converting it back with
to_string returns exactly the input string; "0/0" and
"FFFFFFFF/FFFFFFFF" are instances. -/
theorem c7_round_trip_canonical (hi lo : List Char)
    (hhi : ∀ c ∈ hi, isUpperHexDigit c) (hlo : ∀ c ∈ lo, isUpperHexDigit c)
    (hhne : hi ≠ []) (hlne : lo ≠ [])
    (hhz : hi.head? = some '0' → hi = ['0'])
    (hlz : lo.head? = some '0' → lo = ['0'])
    (hl8 : lo.length ≤ 8) :
    (LSN.parse_string ⟨hi ++ '/' :: lo⟩).map LSN.to_string =
      some ⟨hi ++ '/' :: lo⟩ := by
  have hsplit : splitSlash (hi ++ '/' :: lo) = [hi, lo] :=
    splitSlash_append hi lo (fun c hc => upperHexDigit_ne_slash c (hhi c hc))
      (fun c hc => upperHexDigit_ne_slash c (hlo c hc))
  have hparse : LSN.parse_string ⟨hi ++ '/' :: lo⟩ =
      some ⟨(hexVal hi <<< 32) ||| hexVal lo⟩ := by
    unfold LSN.parse_string
    simp only [hsplit, if_neg hhne, hexStrVal_eq hi hhne hhi,
      hexStrVal_eq lo hlne hlo]
  rw [hparse]
  show some _ = _
  congr 1
  rw [LSN.to_string]
  rw [lsn_file_id_of_halves _ _ (hexVal_lt lo hlo hl8)]
  rw [lsn_file_offset_of_halves _ _ (hexVal_lt lo hlo hl8)]
  rw [natToHex_hexVal hi hhi hhne hhz, natToHex_hexVal lo hlo hlne hlz]

/-- C7 witness: the amended round-trip applied to "FFFFFFFF/FFFFFFFF". -/
theorem c7_round_trip_canonical_witness :
    (∀ c ∈ ['F','F','F','F','F','F','F','F'], isUpperHexDigit c) ∧
    (LSN.parse_string "FFFFFFFF/FFFFFFFF").map LSN.to_string =
      some "FFFFFFFF/FFFFFFFF" := by
  constructor
  · decide
  · exact c7_round_trip_canonical ['F','F','F','F','F','F','F','F']
      ['F','F','F','F','F','F','F','F'] (by decide) (by decide) (by decide)
      (by decide) (by decide) (by decide) (by decide)

/-- C8: for every cursor state and every requested count,
peek_bytes(count) never raises (it is a total function of the state),
never changes the cursor (the returned state is the argument state
unchanged), and returns the next count bytes of the buffer when that
many remain and otherwise exactly the remaining bytes. -/
theorem c8_peek_bytes_total_and_pure (r : BinaryReader) (n : Nat) :
    (r.peek_bytes n).2 = r ∧
    (r.peek_bytes n).1 =
      (if n ≤ r.remaining_bytes then (r.data.toList.drop r.position).take n
       else r.data.toList.drop r.position) := by
  constructor
  · unfold BinaryReader.peek_bytes
    split <;> rfl
  · unfold BinaryReader.peek_bytes
    split
    · next h =>
      simp only [PyBytes.slice_toList]
      rw [show r.data.toList.take r.data.size = r.data.toList from by
        rw [← pyBytes_toList_length r.data, List.take_length]]
      split
      · next h2 =>
        have hp : r.data.toList.length ≤ r.position := by
          have := pyBytes_toList_length r.data
          unfold BinaryReader.remaining_bytes BinaryReader.length at h2
          unfold BinaryReader.length at h
          omega
        rw [List.drop_eq_nil_iff.mpr hp]
        simp
      · rfl
    · next h =>
      simp only [PyBytes.slice_toList]
      rw [List.take_drop]
      split
      · rfl
      · next h2 =>
        unfold BinaryReader.remaining_bytes BinaryReader.length at h2
        unfold BinaryReader.length at h
        omega

/-- C9: when fewer than count bytes remain, read_bytes and skip_bytes
raise EOFError before performing any mutation: the returned state is
exactly the argument state (same buffer, same position). -/
theorem c9_failed_reads_are_atomic (r : BinaryReader) (n : Nat)
    (h : r.remaining_bytes < n) :
    (r.read_bytes n).1 = .error "EOFError" ∧ (r.read_bytes n).2 = r ∧
    (r.skip_bytes n).1 = .error "EOFError" ∧ (r.skip_bytes n).2 = r := by
  unfold BinaryReader.remaining_bytes BinaryReader.length at h
  have hc : r.position + n > r.data.size := by omega
  unfold BinaryReader.read_bytes BinaryReader.skip_bytes
  simp [BinaryReader.length, hc]

/-- C9 witness: a three-byte buffer at position 2 with a five-byte
request. -/
theorem c9_failed_reads_are_atomic_witness :
    (BinaryReader.mk (PyBytes.ofList [7, 8, 9]) 2).remaining_bytes < 5 ∧
    ((BinaryReader.mk (PyBytes.ofList [7, 8, 9]) 2).read_bytes 5).1 =
      .error "EOFError" := by
  refine ⟨by decide, ?_⟩
  exact (c9_failed_reads_are_atomic (BinaryReader.mk (PyBytes.ofList [7, 8, 9]) 2)
    5 (by decide)).1
